/-
Verification of the WTA preprocessing pipeline (scripts/preprocess_wta.py).

This file gives a shallow embedding of the chronological feature engine of
the pipeline — the score decoder (`parse_score`), the Elo rating engine
(`compute_elo`), the head-to-head tracker (`compute_head_to_head`), the
rolling-window aggregator (`add_rolling_features`) and the schema-checked
entry point (`preprocess` / `run_pipeline`) — and proves the specified
properties about them.

Modelling conventions:
  * pandas dataframes become lists of records; a NaN-able numeric cell
    becomes `Option ℚ`, a NaN-able text cell becomes `Option String`;
  * Python floats are modelled as real numbers (exact arithmetic);
  * `defaultdict(lambda: 1500.0)` becomes a total function `String → ℝ`
    that is `1500` outside the set of keys written so far.  This is
    extensionally faithful: reading a missing key in the Python code
    inserts the default `1500.0`, and the annual decay fixes `1500.0`,
    so decaying "all known keys" and decaying "all keys" coincide;
  * the per-(player, date, match_id) `groupby`/`shift` computations of
    `add_rolling_features` are expressed through the per-key
    chronological subsequence of the match list (the keys
    (player, date, match_id) of the rows of one player are strictly
    increasing in `match_id`, and `match_id` increases with `date`, so
    the group order is exactly the chronological subsequence).
-/
import Mathlib

namespace WTA

/-- Configuration record of the pipeline (`PreprocessConfig` in the source;
the `output` path only feeds I/O and is omitted).  The float-valued
fields are carried as rationals so the record stays executable; they are
cast to ℝ where the rating engine uses them. -/
structure PreprocessConfig where
  min_year : ℤ := 2010
  rolling_matches : ℕ := 10
  rolling_surface_matches : ℕ := 6
  rolling_days : ℕ := 365
  elo_k : ℚ := 32
  surface_elo_k : ℚ := 24
  elo_decay : ℚ := 1 / 100

/-- The default configuration (all defaults of the `@dataclass`). -/
def defaultCfg : PreprocessConfig := {}

/-- One cleaned match row, as it enters `compute_elo` /
`compute_head_to_head` / `expand_long` (i.e. after the filtering, date
parsing, chronological sort and `match_id` assignment of `preprocess`).
`date` is a serial day number, `year` its calendar year. -/
structure MatchRow where
  match_id : ℕ
  date : ℤ
  year : ℤ
  surface : String
  player_1 : String
  player_2 : String
  winner : String
  score : Option String
  rank_1 : Option ℚ
  rank_2 : Option ℚ
  pts_1 : Option ℚ
  pts_2 : Option ℚ
  odd_1 : Option ℚ
  odd_2 : Option ℚ
deriving Repr, DecidableEq

/-- Pointwise update of a total map, modelling one dictionary write. -/
def upd {α β : Type} [DecidableEq α] (f : α → β) (k : α) (v : β) : α → β :=
  fun x => if x = k then v else f x

/- ------------------------------------------------------------------ -/
/- Score decoder: `parse_score` and the regex scan `(\d+)-(\d+)`.     -/
/- ------------------------------------------------------------------ -/

/-- Numeric value of a digit run, as `int(...)` of the matched text. -/
def digitsToNat (ds : List Char) : ℕ :=
  ds.foldl (fun n c => 10 * n + (c.toNat - 48)) 0

mutual

/-- Left-to-right scan for `(\d+)-(\d+)`, idle state: no digit seen. -/
def scanS : List Char → List (ℕ × ℕ)
  | [] => []
  | c :: rest =>
    if c.isDigit then scanN1 (c.toNat - 48) rest else scanS rest

/-- Scan state: inside the first (greedy) digit run, value `acc` so far. -/
def scanN1 (acc : ℕ) : List Char → List (ℕ × ℕ)
  | [] => []
  | c :: rest =>
    if c.isDigit then scanN1 (10 * acc + (c.toNat - 48)) rest
    else if c = '-' then scanH acc rest
    else scanS rest

/-- Scan state: first number and hyphen seen; a digit must follow, else
the attempt fails and the scan resumes one character later (exactly the
advance behaviour of `re.findall`). -/
def scanH (n1 : ℕ) : List Char → List (ℕ × ℕ)
  | [] => []
  | c :: rest =>
    if c.isDigit then scanN2 n1 (c.toNat - 48) rest else scanS rest

/-- Scan state: inside the second (greedy) digit run; on its end the
pair is emitted and the scan continues after the match. -/
def scanN2 (n1 acc : ℕ) : List Char → List (ℕ × ℕ)
  | [] => [(n1, acc)]
  | c :: rest =>
    if c.isDigit then scanN2 n1 (10 * acc + (c.toNat - 48)) rest
    else (n1, acc) :: scanS rest

end

/-- Model of `SCORE_PATTERN.findall(score)`: all non-overlapping `(\d+)-(\d+)`
matches, left to right, both runs greedy.  (`Char.isDigit` is ASCII
0-9; Python `\d` also accepts other Unicode decimal digits, which do
not occur in score tokens.) -/
def findPairs (s : String) : List (ℕ × ℕ) := scanS s.data

/-- Does `hay` start with `needle`?  (Helper for the substring test.) -/
def startsWithChars : List Char → List Char → Bool
  | [], _ => true
  | _ :: _, [] => false
  | a :: as, b :: bs => a = b && startsWithChars as bs

/-- Substring test, modelling Python's `needle in hay`. -/
def containsSub (needle : List Char) : List Char → Bool
  | [] => startsWithChars needle []
  | c :: rest => startsWithChars needle (c :: rest) || containsSub needle rest

/-- One set's contribution to the running five-tuple
(games_1, games_2, sets_1, sets_2, tie_breaks). -/
def scoreStep (t : ℕ × ℕ × ℕ × ℕ × ℕ) (p : ℕ × ℕ) : ℕ × ℕ × ℕ × ℕ × ℕ :=
  let (games_1, games_2, sets_1, sets_2, tie_breaks) := t
  let (g1, g2) := p
  (games_1 + g1, games_2 + g2,
   sets_1 + (if g1 > g2 then 1 else 0),
   sets_2 + (if g2 > g1 then 1 else 0),
   tie_breaks + (if max g1 g2 ≥ 7 then 1 else 0))

/-- The walkover tokens the code tests for (`"w/o" in score.lower()`,
`"walkover" in score.lower()`). -/
def woToken : String := "w/o"

/-- See `woToken`. -/
def walkoverToken : String := "walkover"

/-- Model of `score.strip()` on the character list (ASCII whitespace at either
end removed). -/
def trimChars (l : List Char) : List Char :=
  ((l.dropWhile Char.isWhitespace).reverse.dropWhile Char.isWhitespace).reverse

/-- Model of `parse_score`: returns (games_p1, games_p2, sets_p1, sets_p2,
tie_breaks).  `none` models a non-string cell (NaN). -/
def parse_score (score : Option String) : ℕ × ℕ × ℕ × ℕ × ℕ :=
  match score with
  | none => (0, 0, 0, 0, 0)
  | some s =>
    let t := trimChars s.data
    if t.isEmpty || containsSub woToken.data (t.map Char.toLower)
        || containsSub walkoverToken.data (t.map Char.toLower) then
      (0, 0, 0, 0, 0)
    else
      (scanS t).foldl scoreStep (0, 0, 0, 0, 0)

/- ------------------------------------------------------------------ -/
/- Derived score columns (`add_score_features`).                      -/
/- ------------------------------------------------------------------ -/

/-- The columns `(p1_games_won, p2_games_won, p1_sets_won, p2_sets_won,
tie_breaks_played)` of one match.  `scores.fillna("")` makes the NaN
case hit the same all-zero branch `parse_score` already has. -/
def scoreStats (m : MatchRow) : ℕ × ℕ × ℕ × ℕ × ℕ := parse_score m.score

/-- The column `games_delta = p1_games_won - p2_games_won`. -/
def gamesDelta (m : MatchRow) : ℚ :=
  ((scoreStats m).1 : ℚ) - ((scoreStats m).2.1 : ℚ)

/-- The column `sets_delta = p1_sets_won - p2_sets_won`. -/
def setsDelta (m : MatchRow) : ℚ :=
  ((scoreStats m).2.2.1 : ℚ) - ((scoreStats m).2.2.2.1 : ℚ)

/-- The column `tie_breaks_played` (never NaN after `fillna(0)`). -/
def tieBreaksPlayed (m : MatchRow) : ℚ := ((scoreStats m).2.2.2.2 : ℚ)

/- ------------------------------------------------------------------ -/
/- A generic emit-then-update scan over the match list.               -/
/- `compute_elo` and `compute_head_to_head` are both of this shape:   -/
/- per row, first read/emit from the current state, then advance it.  -/
/- ------------------------------------------------------------------ -/

/-- Row-by-row scan: `f st m` yields the value emitted for row `m` and
the successor state. -/
def scanGo {α σ β : Type} (f : σ → α → β × σ) : σ → List α → List β
  | _, [] => []
  | st, m :: rest => (f st m).1 :: scanGo f (f st m).2 rest

/-- The state after consuming a list of rows. -/
def scanFold {α σ β : Type} (f : σ → α → β × σ) (st : σ) (l : List α) : σ :=
  l.foldl (fun s m => (f s m).2) st

/- ------------------------------------------------------------------ -/
/- Rating engine: `compute_elo`.                                      -/
/- ------------------------------------------------------------------ -/

/-- State of `compute_elo`: the two per-key rating dictionaries (total
functions, `1500` off the written keys — see the header note on
`defaultdict`) and the last processed calendar year. -/
structure EloState where
  ratings : String → ℝ
  surfaceRatings : String × String → ℝ
  lastYear : Option ℤ

/-- Initial rating state: everything at baseline, no year seen. -/
def eloInit : EloState :=
  { ratings := fun _ => 1500, surfaceRatings := fun _ => 1500, lastYear := none }

/-- The seasonal decay block at the top of the per-match loop: when the
row's year exceeds the last seen year, every rating is pulled toward the
baseline by `1500 + (old - 1500) * exp(-elo_decay * (year - last_year))`;
in every case `last_year` becomes the row's year. -/
noncomputable def eloDecayStep (cfg : PreprocessConfig) (st : EloState) (year : ℤ) : EloState :=
  match st.lastYear with
  | none => { st with lastYear := some year }
  | some ly =>
    if ly < year then
      { ratings := fun p =>
          1500 + (st.ratings p - 1500) * Real.exp (-(cfg.elo_decay : ℝ) * ((year : ℝ) - (ly : ℝ))),
        surfaceRatings := fun k =>
          1500 + (st.surfaceRatings k - 1500) * Real.exp (-(cfg.elo_decay : ℝ) * ((year : ℝ) - (ly : ℝ))),
        lastYear := some year }
    else { st with lastYear := some year }

/-- The realized `outcome = 1.0 if row.winner == row.player_1 else 0.0`. -/
def eloOutcome (m : MatchRow) : ℝ := if m.winner = m.player_1 then 1 else 0

/-- The logistic expected score `1 / (1 + 10 ** ((r2 - r1) / 400))`. -/
noncomputable def eloExpected (r1 r2 : ℝ) : ℝ :=
  1 / (1 + Real.rpow 10 ((r2 - r1) / 400))

/-- The rating updates of one match (both write orders as in the code:
player_1's entry is written first, player_2's second). -/
noncomputable def eloApply (cfg : PreprocessConfig) (st : EloState) (m : MatchRow) : EloState :=
  let r1 := st.ratings m.player_1
  let r2 := st.ratings m.player_2
  let s1 := st.surfaceRatings (m.player_1, m.surface)
  let s2 := st.surfaceRatings (m.player_2, m.surface)
  let expected := eloExpected r1 r2
  let outcome := eloOutcome m
  let expectedS := eloExpected s1 s2
  { ratings :=
      upd (upd st.ratings m.player_1 (r1 + (cfg.elo_k : ℝ) * (outcome - expected)))
        m.player_2 (r2 + (cfg.elo_k : ℝ) * ((1 - outcome) - (1 - expected))),
    surfaceRatings :=
      upd (upd st.surfaceRatings (m.player_1, m.surface)
            (s1 + (cfg.surface_elo_k : ℝ) * (outcome - expectedS)))
        (m.player_2, m.surface)
        (s2 + (cfg.surface_elo_k : ℝ) * ((1 - outcome) - (1 - expectedS))),
    lastYear := st.lastYear }

/-- The four pre-match rating columns appended for one row. -/
structure EloRow where
  elo_p1 : ℝ
  elo_p2 : ℝ
  surface_elo_p1 : ℝ
  surface_elo_p2 : ℝ

/-- The pre-update snapshot read after the decay block. -/
noncomputable def eloEmit (st : EloState) (m : MatchRow) : EloRow :=
  { elo_p1 := st.ratings m.player_1,
    elo_p2 := st.ratings m.player_2,
    surface_elo_p1 := st.surfaceRatings (m.player_1, m.surface),
    surface_elo_p2 := st.surfaceRatings (m.player_2, m.surface) }

/-- One iteration of the `compute_elo` loop: decay, snapshot, update. -/
noncomputable def eloStepFull (cfg : PreprocessConfig) (st : EloState) (m : MatchRow) :
    EloRow × EloState :=
  let st1 := eloDecayStep cfg st m.year
  (eloEmit st1 m, eloApply cfg st1 m)

/-- Model of `compute_elo`: the per-row pre-match rating columns. -/
noncomputable def compute_elo (cfg : PreprocessConfig) (l : List MatchRow) : List EloRow :=
  scanGo (eloStepFull cfg) eloInit l

/- ------------------------------------------------------------------ -/
/- Head-to-head tracker: `compute_head_to_head`.                      -/
/- ------------------------------------------------------------------ -/

/-- State: `h2h_wins` (a `defaultdict(int)`, hence a total map with
default `0`) and `last_winner` (a plain dict, hence `Option`-valued). -/
structure H2HState where
  wins : String × String → ℕ
  last : String × String → Option ℤ

/-- Initial head-to-head state. -/
def h2hInit : H2HState := { wins := fun _ => 0, last := fun _ => none }

/-- The emitted pair `(h2h_advantage, last_winner_indicator)`:
`(wins - losses) / total` if the pair has met, else `0.0`; the last
indicator re-encodes the stored `±1` and defaults to `0`. -/
def h2hEmit (st : H2HState) (m : MatchRow) : ℚ × ℤ :=
  let w := st.wins (m.player_1, m.player_2)
  let lo := st.wins (m.player_2, m.player_1)
  let total := w + lo
  let adv : ℚ := if 0 < total then ((w : ℚ) - (lo : ℚ)) / (total : ℚ) else 0
  let last := st.last (m.player_1, m.player_2)
  (adv, if last = some 1 then 1 else if last = some (-1) then -1 else 0)

/-- The post-match update (`if row.winner == p1 … else …`; the writes to
`last_winner` happen key first, reversed key second). -/
def h2hApply (st : H2HState) (m : MatchRow) : H2HState :=
  let key := (m.player_1, m.player_2)
  let rev := (m.player_2, m.player_1)
  if m.winner = m.player_1 then
    { wins := upd st.wins key (st.wins key + 1),
      last := upd (upd st.last key (some 1)) rev (some (-1)) }
  else
    { wins := upd st.wins rev (st.wins rev + 1),
      last := upd (upd st.last key (some (-1))) rev (some 1) }

/-- One iteration of the `compute_head_to_head` loop: read, then write. -/
def h2hStepFull (st : H2HState) (m : MatchRow) : (ℚ × ℤ) × H2HState :=
  (h2hEmit st m, h2hApply st m)

/-- Model of `compute_head_to_head`: per-row `(h2h_advantage,
last_winner_indicator)` columns. -/
def compute_head_to_head (l : List MatchRow) : List (ℚ × ℤ) :=
  scanGo h2hStepFull h2hInit l

/-- The number of wins the code's tally attributes to the ordered pair
`(a, b)` over a list of matches: `h2h_wins[(a, b)]` grows on a match
either when `a` and `b` meet in that orientation and `winner == player_1`,
or when they meet in the reversed orientation and `winner != player_1`
(the code's `else` branch). -/
def h2hCountWins (l : List MatchRow) (a b : String) : ℕ :=
  l.countP (fun m =>
    decide ((m.player_1 = a ∧ m.player_2 = b ∧ m.winner = m.player_1) ∨
            (m.player_1 = b ∧ m.player_2 = a ∧ m.winner ≠ m.player_1)))

/-- Wins of `a` over `b` as the spec words them: meetings of the pair
won by `a`.  Coincides with `h2hCountWins` whenever every winner field
names one of the two players of its match (proved below). -/
def specWins (l : List MatchRow) (a b : String) : ℕ :=
  l.countP (fun m =>
    decide (((m.player_1 = a ∧ m.player_2 = b) ∨ (m.player_1 = b ∧ m.player_2 = a)) ∧
            m.winner = a))

/-- The advantage value as a function of the two directed win counts:
`(wins - losses) / (wins + losses)`, with the defined neutral `0.0` for
a pair that has never met. -/
def advFromCounts (w lo : ℕ) : ℚ :=
  if 0 < w + lo then ((w : ℚ) - (lo : ℚ)) / ((w + lo : ℕ) : ℚ) else 0

/- ------------------------------------------------------------------ -/
/- Long expansion: `expand_long`.                                     -/
/- ------------------------------------------------------------------ -/

/-- One row of the long (one row per player per match) table.  The
pass-through metadata that no later step reads is omitted. -/
structure LongRow where
  match_id : ℕ
  date : ℤ
  surface : String
  player : String
  opponent : String
  player_rank : Option ℚ
  player_pts : Option ℚ
  is_player_1 : Bool
  won : ℕ
  games_delta_signed : ℚ
  sets_delta_signed : ℚ
  tie_breaks_played : ℚ

/-- The player-1 half of `expand_long` for one match
(`first["won"] = (df["winner"] == df["player_1"]).astype(int)`). -/
def longRowP1 (m : MatchRow) : LongRow :=
  { match_id := m.match_id, date := m.date, surface := m.surface,
    player := m.player_1, opponent := m.player_2,
    player_rank := m.rank_1, player_pts := m.pts_1,
    is_player_1 := true,
    won := if m.winner = m.player_1 then 1 else 0,
    games_delta_signed := gamesDelta m,
    sets_delta_signed := setsDelta m,
    tie_breaks_played := tieBreaksPlayed m }

/-- The player-2 half of `expand_long` for one match
(`second["won"] = (df["winner"] == df["player_2"]).astype(int)`; the
signed margins are negated by the `np.where(is_player_1, …, -…)`). -/
def longRowP2 (m : MatchRow) : LongRow :=
  { match_id := m.match_id, date := m.date, surface := m.surface,
    player := m.player_2, opponent := m.player_1,
    player_rank := m.rank_2, player_pts := m.pts_2,
    is_player_1 := false,
    won := if m.winner = m.player_2 then 1 else 0,
    games_delta_signed := -(gamesDelta m),
    sets_delta_signed := -(setsDelta m),
    tie_breaks_played := tieBreaksPlayed m }

/-- Model of `expand_long`: `pd.concat([first, second])` — all player-1 rows, in
order, then all player-2 rows. -/
def expand_long (l : List MatchRow) : List LongRow :=
  l.map longRowP1 ++ l.map longRowP2

/- ------------------------------------------------------------------ -/
/- Rolling window aggregator: `add_rolling_features`.                 -/
/-                                                                    -/
/- `add_rolling_features` sorts the long table by (player, date,       -/
/- match_id) and computes, per `groupby` key, shifted rolling means.  -/
/- Because the input matches carry strictly increasing `match_id` in  -/
/- date order, the rows of one group appear exactly in input order,   -/
/- so a group's series is the chronological subsequence of matches    -/
/- with that key.  The functions below compute a feature for "the row -/
/- of player p in match i" through that subsequence.                  -/
/- ------------------------------------------------------------------ -/

/-- Does player `p` play in match `m` (i.e. does the long table hold a
row keyed `p` for `m`)? -/
def involves (p : String) (m : MatchRow) : Bool :=
  m.player_1 = p || m.player_2 = p

/-- The `groupby(["player", "surface"])` key test. -/
def involvesOn (p srf : String) (m : MatchRow) : Bool :=
  involves p m && m.surface = srf

/-- Model of `series.shift(1).rolling(window=W, min_periods=M).mean()` evaluated
at position `i` of a NaN-free group series `s`: the window holds the
last `min i W` entries strictly before `i`; the mean is `NaN` (`none`)
when that count is below `M`. -/
def rollingMeanAt (W M : ℕ) (s : List ℚ) (i : ℕ) : Option ℚ :=
  let w := (s.take i).drop (i - W)
  if w.length < M then none else some (w.sum / (w.length : ℚ))

/-- The group series of the rows selected by `pred`, each mapped to the
numeric column `f`. -/
def groupSeries (pred : MatchRow → Bool) (f : MatchRow → ℚ) (l : List MatchRow) : List ℚ :=
  (l.filter pred).map f

/-- The position of row `i` inside its group: the number of earlier
rows of the same group. -/
def groupIdx (pred : MatchRow → Bool) (l : List MatchRow) (i : ℕ) : ℕ :=
  ((l.take i).filter pred).length

/-- The shifted rolling mean of column `f` over group `pred`, read at
match `i` of the chronological list `l`. -/
def groupFeatureAt (W M : ℕ) (pred : MatchRow → Bool) (f : MatchRow → ℚ)
    (l : List MatchRow) (i : ℕ) : Option ℚ :=
  rollingMeanAt W M (groupSeries pred f l) (groupIdx pred l i)

/-- The `won` column of the long row of player `p`. -/
def wonIndicator (p : String) (m : MatchRow) : ℚ :=
  if m.winner = p then 1 else 0

/-- The `games_delta_signed` column of the long row of player `p`. -/
def gamesDeltaSigned (p : String) (m : MatchRow) : ℚ :=
  if m.player_1 = p then gamesDelta m else -(gamesDelta m)

/-- The `sets_delta_signed` column of the long row of player `p`. -/
def setsDeltaSigned (p : String) (m : MatchRow) : ℚ :=
  if m.player_1 = p then setsDelta m else -(setsDelta m)

/-- The `player_rank` cell of the long row of player `p` (maybe NaN). -/
def rankOf (p : String) (m : MatchRow) : Option ℚ :=
  if m.player_1 = p then m.rank_1 else m.rank_2

/-- The `player_pts` cell of the long row of player `p` (maybe NaN). -/
def ptsOf (p : String) (m : MatchRow) : Option ℚ :=
  if m.player_1 = p then m.pts_1 else m.pts_2

/-- The column `form_win_rate`: shifted rolling mean of `won`, window
`rolling_matches`, `min_periods=3`. -/
def form_win_rate (cfg : PreprocessConfig) (l : List MatchRow) (i : ℕ) (p : String) : Option ℚ :=
  groupFeatureAt cfg.rolling_matches 3 (involves p) (wonIndicator p) l i

/-- The column `surface_form_win_rate`: shifted rolling mean of `won` over the
(player, surface) group, window `rolling_surface_matches`,
`min_periods=2`. -/
def surface_form_win_rate (cfg : PreprocessConfig) (l : List MatchRow) (i : ℕ)
    (p srf : String) : Option ℚ :=
  groupFeatureAt cfg.rolling_surface_matches 2 (involvesOn p srf) (wonIndicator p) l i

/-- The column `games_delta_avg`. -/
def games_delta_avg (cfg : PreprocessConfig) (l : List MatchRow) (i : ℕ) (p : String) : Option ℚ :=
  groupFeatureAt cfg.rolling_matches 3 (involves p) (gamesDeltaSigned p) l i

/-- The column `sets_delta_avg`. -/
def sets_delta_avg (cfg : PreprocessConfig) (l : List MatchRow) (i : ℕ) (p : String) : Option ℚ :=
  groupFeatureAt cfg.rolling_matches 3 (involves p) (setsDeltaSigned p) l i

/-- The column `tiebreak_rate`. -/
def tiebreak_rate (cfg : PreprocessConfig) (l : List MatchRow) (i : ℕ) (p : String) : Option ℚ :=
  groupFeatureAt cfg.rolling_matches 3 (involves p) tieBreaksPlayed l i

/-- The column `rest_days`: days since the player's previous match,
`fillna(30).clip(0, 60)`. -/
def rest_days (l : List MatchRow) (i : ℕ) (p : String) (d : ℤ) : ℚ :=
  match ((l.take i).filter (involves p)).getLast? with
  | none => 30
  | some pm => min 60 (max 0 ((d - pm.date : ℤ) : ℚ))

/-- Model of `s.shift(1) - s.shift(2)` read at group position `j` of an
`Option`-valued (NaN-able) series: previous value minus the one before
it, `none` as soon as either is out of range or NaN. -/
def trendAt (s : List (Option ℚ)) (j : ℕ) : Option ℚ :=
  if j < 2 then none
  else
    match s.get? (j - 1), s.get? (j - 2) with
    | some (some a), some (some b) => some (a - b)
    | _, _ => none

/-- The column `rank_trend` of the row of player `p` in match `i`. -/
def rank_trend (l : List MatchRow) (i : ℕ) (p : String) : Option ℚ :=
  trendAt ((l.filter (involves p)).map (rankOf p)) (groupIdx (involves p) l i)

/-- The column `points_trend` of the row of player `p` in match `i`. -/
def points_trend (l : List MatchRow) (i : ℕ) (p : String) : Option ℚ :=
  trendAt ((l.filter (involves p)).map (ptsOf p)) (groupIdx (involves p) l i)

/- ------------------------------------------------------------------ -/
/- Pipeline entry points: `preprocess` and `run_pipeline`.            -/
/- ------------------------------------------------------------------ -/

/-- One raw input row, after the loader's name/type normalisation.
`date` is the result of `pd.to_datetime(..., errors="coerce")`: `none`
for an unparsable date, otherwise the pair (serial day, calendar
year). -/
structure RawRow where
  player_1 : Option String
  player_2 : Option String
  winner : String
  date : Option (ℤ × ℤ)
  surface : String
  score : Option String
  rank_1 : Option ℚ
  rank_2 : Option ℚ
  pts_1 : Option ℚ
  pts_2 : Option ℚ
  odd_1 : Option ℚ
  odd_2 : Option ℚ

/-- A raw table: its schema (column names, driving the schema check and
the optional-column logic) plus its typed rows.  The pass-through
metadata columns that nothing downstream reads are omitted. -/
structure RawTable where
  cols : List String
  rows : List RawRow

/-- The column rename at the top of `preprocess`. -/
def renameCols (cols : List String) : List String :=
  cols.map (fun c =>
    if c = "player1" then "player_1" else if c = "player2" then "player_2" else c)

/-- The set `required = {"player_1", "player_2", "winner", "date"}`. -/
def requiredCols : List String := ["player_1", "player_2", "winner", "date"]

/-- The required columns still missing after the rename
(`required - set(df.columns)`). -/
def missingCols (t : RawTable) : List String :=
  requiredCols.filter (fun c => decide (c ∉ renameCols t.cols))

/-- The empty string (used as an `Option.getD` default for fields the
surrounding filter has already proven present). -/
def emptyStr : String := ""

/-- The calendar year of a raw row's parsed date (callers guard
`date.isSome`). -/
def rawYear (r : RawRow) : ℤ := (r.date.getD (0, 0)).2

/-- The serial day of a raw row's parsed date. -/
def rawDay (r : RawRow) : ℤ := (r.date.getD (0, 0)).1

/-- Row filtering, chronological sort and `match_id` assignment of
`preprocess`: drop rows with a missing player, an unparsable date or a
year below `min_year`, sort by date, then number the rows.  pandas
`sort_values("date")` uses quicksort, which is deterministic but makes
no stability promise; the model uses a stable merge sort (see the C4
discussion in the results). -/
def prepMatches (cfg : PreprocessConfig) (t : RawTable) : List MatchRow :=
  let rows1 := t.rows.filter (fun r => r.player_1.isSome && r.player_2.isSome)
  let rows2 := rows1.filter (fun r => r.date.isSome)
  let rows3 := rows2.filter (fun r => decide (cfg.min_year ≤ rawYear r))
  let sorted := rows3.mergeSort (fun a b => decide (rawDay a ≤ rawDay b))
  sorted.enum.map (fun ir =>
    { match_id := ir.1, date := rawDay ir.2, year := rawYear ir.2,
      surface := ir.2.surface,
      player_1 := ir.2.player_1.getD emptyStr,
      player_2 := ir.2.player_2.getD emptyStr,
      winner := ir.2.winner, score := ir.2.score,
      rank_1 := ir.2.rank_1, rank_2 := ir.2.rank_2,
      pts_1 := ir.2.pts_1, pts_2 := ir.2.pts_2,
      odd_1 := ir.2.odd_1, odd_2 := ir.2.odd_2 })

/-- The label `df["y"] = (df["winner"] == df["player_1"]).astype(int)`. -/
def labelY (m : MatchRow) : ℕ := if m.winner = m.player_1 then 1 else 0

/-- NaN-propagating subtraction of two maybe-missing numeric cells. -/
def optSub (a b : Option ℚ) : Option ℚ :=
  match a, b with
  | some x, some y => some (x - y)
  | _, _ => none

/-- One output row (`keep_columns`; pass-through metadata columns that
no claim mentions are omitted).  Columns that can be NaN are
`Option`-valued. -/
structure OutRow where
  date : ℤ
  surface : String
  player_1 : String
  player_2 : String
  winner : String
  score : Option String
  y : ℕ
  year : ℤ
  rank_diff : Option ℚ
  pts_diff : Option ℚ
  odd_diff : Option ℚ
  elo_diff : ℝ
  surface_elo_diff : ℝ
  form_diff : Option ℚ
  surface_form_diff : Option ℚ
  games_margin_diff : Option ℚ
  sets_margin_diff : Option ℚ
  rest_days_diff : ℚ
  tiebreak_rate_diff : Option ℚ
  rank_trend_diff : Option ℚ
  points_trend_diff : Option ℚ
  h2h_advantage : ℚ
  last_winner_indicator : ℤ
  surface_winrate_adv : Option ℚ
  last_winner : ℕ

/-- Assemble the output row of match `i` from the pre-match snapshots
(`aggregate_back` plus the final derived columns of `preprocess`). -/
noncomputable def assembleRow (cfg : PreprocessConfig) (ms : List MatchRow) (i : ℕ)
    (m : MatchRow) (e : EloRow) (h : ℚ × ℤ) : OutRow :=
  let sfd := optSub (surface_form_win_rate cfg ms i m.player_1 m.surface)
    (surface_form_win_rate cfg ms i m.player_2 m.surface)
  { date := m.date, surface := m.surface,
    player_1 := m.player_1, player_2 := m.player_2,
    winner := m.winner, score := m.score,
    y := labelY m, year := m.year,
    rank_diff := optSub m.rank_1 m.rank_2,
    pts_diff := optSub m.pts_1 m.pts_2,
    odd_diff := optSub m.odd_1 m.odd_2,
    elo_diff := e.elo_p1 - e.elo_p2,
    surface_elo_diff := e.surface_elo_p1 - e.surface_elo_p2,
    form_diff := optSub (form_win_rate cfg ms i m.player_1) (form_win_rate cfg ms i m.player_2),
    surface_form_diff := sfd,
    games_margin_diff := optSub (games_delta_avg cfg ms i m.player_1)
      (games_delta_avg cfg ms i m.player_2),
    sets_margin_diff := optSub (sets_delta_avg cfg ms i m.player_1)
      (sets_delta_avg cfg ms i m.player_2),
    rest_days_diff := rest_days ms i m.player_1 m.date - rest_days ms i m.player_2 m.date,
    tiebreak_rate_diff := optSub (tiebreak_rate cfg ms i m.player_1)
      (tiebreak_rate cfg ms i m.player_2),
    rank_trend_diff := optSub (rank_trend ms i m.player_1) (rank_trend ms i m.player_2),
    points_trend_diff := optSub (points_trend ms i m.player_1) (points_trend ms i m.player_2),
    h2h_advantage := h.1,
    last_winner_indicator := h.2,
    surface_winrate_adv := sfd.map (fun q => min 1 (max (-1) q)),
    last_winner := if 0 < h.2 then 1 else 0 }

/-- All output rows before the NaN drop. -/
noncomputable def assembleRows (cfg : PreprocessConfig) (ms : List MatchRow) : List OutRow :=
  ((ms.zip ((compute_elo cfg ms).zip (compute_head_to_head ms))).enum).map
    (fun ime => assembleRow cfg ms ime.1 ime.2.1 ime.2.2.1 ime.2.2.2)

/-- Optional-column names tested against the schema. -/
def colRankDiff : String := "rank_diff"

/-- See `colRankDiff`. -/
def colPtsDiff : String := "pts_diff"

/-- See `colRankDiff`. -/
def colOddDiff : String := "odd_diff"

/-- See `colRankDiff`. -/
def colRank1 : String := "rank_1"

/-- See `colRankDiff`. -/
def colRank2 : String := "rank_2"

/-- See `colRankDiff`. -/
def colPts1 : String := "pts_1"

/-- See `colRankDiff`. -/
def colPts2 : String := "pts_2"

/-- See `colRankDiff`. -/
def colOdd1 : String := "odd_1"

/-- See `colRankDiff`. -/
def colOdd2 : String := "odd_2"

/-- The `dropna(subset=present_numeric)` keep test.  The elo, h2h,
`rest_days` and indicator columns are total (never NaN); the rolling
and trend columns, and the three loader-provided diffs when their
columns exist, must be non-null for the row to survive. -/
def keepRow (hasRank hasPts hasOdd : Bool) (r : OutRow) : Bool :=
  r.form_diff.isSome && r.surface_form_diff.isSome &&
  r.games_margin_diff.isSome && r.sets_margin_diff.isSome &&
  r.tiebreak_rate_diff.isSome && r.rank_trend_diff.isSome &&
  r.points_trend_diff.isSome &&
  (!hasRank || r.rank_diff.isSome) && (!hasPts || r.pts_diff.isSome) &&
  (!hasOdd || r.odd_diff.isSome)

/-- The schema-error message (`KeyError` payload). -/
def schemaErrMsg (missing : List String) : String :=
  "Dataset missing required columns: " ++ toString missing

/-- Model of `preprocess`: the schema check is the very first effect — with any
required column missing it raises before touching a row, creating any
rating / history / head-to-head state, or emitting any output.  On the
ok path it prepares the chronological match list, runs the three
stateful engines, assembles the rows and drops NaN rows. -/
noncomputable def preprocess (cfg : PreprocessConfig) (t : RawTable) :
    Except String (List OutRow) :=
  if (missingCols t).isEmpty then
    let ms := prepMatches cfg t
    let cols := renameCols t.cols
    Except.ok ((assembleRows cfg ms).filter
      (keepRow (cols.contains colRankDiff) (cols.contains colPtsDiff)
        (cols.contains colOddDiff)))
  else
    Except.error (schemaErrMsg (missingCols t))

/-- The column additions at the top of `run_pipeline`: a `rank_diff` /
`pts_diff` / `odd_diff` column appears when absent but derivable.  (The
cell values are derived per-row in `assembleRow`.) -/
def addDiffCols (t : RawTable) : RawTable :=
  { t with cols := t.cols
      ++ (if !t.cols.contains colRankDiff && t.cols.contains colRank1
            && t.cols.contains colRank2 then [colRankDiff] else [])
      ++ (if !t.cols.contains colPtsDiff && t.cols.contains colPts1
            && t.cols.contains colPts2 then [colPtsDiff] else [])
      ++ (if !t.cols.contains colOddDiff && t.cols.contains colOdd1
            && t.cols.contains colOdd2 then [colOddDiff] else []) }

/-- Model of `run_pipeline` without its I/O: derive the diff columns, then
`preprocess`. -/
noncomputable def run_pipeline (cfg : PreprocessConfig) (t : RawTable) :
    Except String (List OutRow) :=
  preprocess cfg (addDiffCols t)

/-- The content of the output CSV: written only when `preprocess`
returns (the `to_csv` call sits after it), so `none` on a schema
error. -/
noncomputable def csvWritten (cfg : PreprocessConfig) (t : RawTable) : Option (List OutRow) :=
  (run_pipeline cfg t).toOption

/- ------------------------------------------------------------------ -/
/- Concrete fixtures used by witnesses and counterexamples.           -/
/- ------------------------------------------------------------------ -/

/-- Name constant for fixtures. -/
def pA : String := "Alice"

/-- Name constant for fixtures. -/
def pB : String := "Berta"

/-- Name constant for fixtures. -/
def pC : String := "Carla"

/-- Surface constant for fixtures. -/
def surfHard : String := "Hard"

/-- A minimal match fixture. -/
def mkMatch (id : ℕ) (d y : ℤ) (p1 p2 win : String) : MatchRow :=
  { match_id := id, date := d, year := y, surface := surfHard,
    player_1 := p1, player_2 := p2, winner := win, score := none,
    rank_1 := none, rank_2 := none, pts_1 := none, pts_2 := none,
    odd_1 := none, odd_2 := none }

/-- A match fixture carrying a rank for player 1. -/
def mkMatchRank (id : ℕ) (d y : ℤ) (p1 p2 win : String) (rk : ℚ) : MatchRow :=
  { mkMatch id d y p1 p2 win with rank_1 := some rk }

/-- Replace the outcome fields (winner, score) of a row, leaving its
identity fields (players, surface, date) alone. -/
def setOutcome (m : MatchRow) (w : String) (sc : Option String) : MatchRow :=
  { m with winner := w, score := sc }

/-- Replace only the winner field. -/
def setWinner (m : MatchRow) (w : String) : MatchRow := { m with winner := w }

/-- Two-match fixture: Alice beats Berta, then Berta beats Alice. -/
def w1list : List MatchRow :=
  [mkMatch 0 0 2020 pA pB pA, mkMatch 1 1 2020 pA pB pB]

/-- Four-match fixture in which Alice's rank doubles every match. -/
def c3list : List MatchRow :=
  [mkMatchRank 0 0 2020 pA pB pA 1, mkMatchRank 1 1 2020 pA pB pA 2,
   mkMatchRank 2 2 2020 pA pB pA 4, mkMatchRank 3 3 2020 pA pB pA 8]

/-- A rating state that has already seen the year 2020. -/
def stY : EloState := { eloInit with lastYear := some 2020 }

/-- A fixture whose winner string names neither player. -/
def badWinnerMatch : MatchRow := mkMatch 0 0 2020 pA pB pC

/-- A raw table lacking the required `player_2` column. -/
def badTable : RawTable :=
  { cols := ["player_1", "winner", "date"], rows := [] }

/-- The retirement score token used to exhibit the `parse_score`
docstring violation. -/
def retScore : String := "6-3 ret."

/- ================================================================== -/
/- Theorems.                                                          -/
/- ================================================================== -/

/-- Elementwise description of the emit-then-update scan: the value of
row `i` is the emission of `f` on that row from the state accumulated
over the strict prefix. -/
theorem scanGo_get? {α σ β : Type} (f : σ → α → β × σ) (l : List α) (st : σ) (i : ℕ) :
    (scanGo f st l).get? i
      = (l.get? i).map (fun m => (f (scanFold f st (l.take i)) m).1) := by
  induction l generalizing st i with
  | nil => simp [scanGo]
  | cons m rest ih =>
    cases i with
    | zero => simp [scanGo, scanFold]
    | succ i => simpa [scanGo, scanFold] using ih (f st m).2 i

/-- Setting an element at or beyond position `j` does not change the
first `j` elements. -/
theorem take_set_of_le {α : Type} (l : List α) (i j : ℕ) (a : α) (h : j ≤ i) :
    (l.set i a).take j = l.take j := by
  induction l generalizing i j with
  | nil => simp
  | cons x xs ih =>
    cases i with
    | zero =>
      have : j = 0 := by omega
      simp [this]
    | succ i =>
      cases j with
      | zero => simp
      | succ j => simp [ih i j (by omega)]

/-- The global update of `compute_elo` is exactly zero-sum: the code
computes a single `expected` and uses its complement for player 2, so
`K * (outcome - expected) + K * ((1 - outcome) - (1 - expected)) = 0`
identically. -/
theorem eloApply_zero_sum_aux (cfg : PreprocessConfig) (st : EloState) (m : MatchRow)
    (hp : m.player_1 ≠ m.player_2) :
    ((eloApply cfg st m).ratings m.player_1 - st.ratings m.player_1) +
      ((eloApply cfg st m).ratings m.player_2 - st.ratings m.player_2) = 0 := by
  simp only [eloApply, upd]
  simp only [if_true, eq_self_iff_true, if_neg hp]
  ring

/-- Claim C2 (corrected): for every match between two distinct players,
the sum of the two global rating changes applied by the rating engine is
exactly zero — player 2's change `K_global * ((1-outcome) - (1-expected))`
is the algebraic negation of player 1's `K_global * (outcome - expected)`,
because `compute_elo` computes one `expected` value and reuses it rather
than computing two independent expectations. -/
theorem global_update_exactly_zero_sum (cfg : PreprocessConfig) (st : EloState)
    (m : MatchRow) (hp : m.player_1 ≠ m.player_2) :
    ((eloApply cfg st m).ratings m.player_1 - st.ratings m.player_1) +
      ((eloApply cfg st m).ratings m.player_2 - st.ratings m.player_2) = 0 :=
  eloApply_zero_sum_aux cfg st m hp

/-- Claim C2, counterexample to the claim as stated: at the concrete
first match of the fixture (Alice beats Berta from the initial state),
the sum of the two applied global rating changes is exactly `0`, not
non-zero. -/
theorem global_update_zero_sum_cex :
    ((eloApply defaultCfg eloInit (mkMatch 0 0 2020 pA pB pA)).ratings
        (mkMatch 0 0 2020 pA pB pA).player_1
      - eloInit.ratings (mkMatch 0 0 2020 pA pB pA).player_1) +
    ((eloApply defaultCfg eloInit (mkMatch 0 0 2020 pA pB pA)).ratings
        (mkMatch 0 0 2020 pA pB pA).player_2
      - eloInit.ratings (mkMatch 0 0 2020 pA pB pA).player_2) = 0 :=
  eloApply_zero_sum_aux defaultCfg eloInit (mkMatch 0 0 2020 pA pB pA) (by decide)

/-- Witness for `global_update_exactly_zero_sum` at a concrete input. -/
theorem global_update_exactly_zero_sum_witness :
    (badWinnerMatch.player_1 ≠ badWinnerMatch.player_2) ∧
    ((eloApply defaultCfg eloInit badWinnerMatch).ratings badWinnerMatch.player_1
        - eloInit.ratings badWinnerMatch.player_1) +
      ((eloApply defaultCfg eloInit badWinnerMatch).ratings badWinnerMatch.player_2
        - eloInit.ratings badWinnerMatch.player_2) = 0 :=
  ⟨by decide, global_update_exactly_zero_sum defaultCfg eloInit badWinnerMatch (by decide)⟩

/-- Claim C5: whenever a row's calendar year exceeds the last-seen year,
`compute_elo` first rescales every global rating and every surface
rating to `1500 + (old - 1500) * exp(-elo_decay * (year - last_year))` —
players absent from the row included; a one-year gap multiplies the
offset from the baseline by `exp(-elo_decay)`; an unchanged year leaves
every rating untouched; and the emitted pre-match snapshot is read from
the decayed state, i.e. the decay happens before the match is
processed. -/
theorem annual_decay_spec (cfg : PreprocessConfig) (st : EloState) (ly y : ℤ)
    (hly : st.lastYear = some ly) :
    (ly < y →
      (∀ p, (eloDecayStep cfg st y).ratings p
          = 1500 + (st.ratings p - 1500)
              * Real.exp (-(cfg.elo_decay : ℝ) * ((y : ℝ) - (ly : ℝ)))) ∧
      (∀ k, (eloDecayStep cfg st y).surfaceRatings k
          = 1500 + (st.surfaceRatings k - 1500)
              * Real.exp (-(cfg.elo_decay : ℝ) * ((y : ℝ) - (ly : ℝ))))) ∧
    (y = ly + 1 →
      ∀ p, (eloDecayStep cfg st y).ratings p - 1500
          = (st.ratings p - 1500) * Real.exp (-(cfg.elo_decay : ℝ))) ∧
    (y = ly →
      (eloDecayStep cfg st y).ratings = st.ratings ∧
      (eloDecayStep cfg st y).surfaceRatings = st.surfaceRatings) ∧
    (∀ m : MatchRow, (eloStepFull cfg st m).1 = eloEmit (eloDecayStep cfg st m.year) m) := by
  refine ⟨?_, ?_, ?_, fun m => rfl⟩
  · intro hlt
    constructor
    · intro p
      simp [eloDecayStep, hly, hlt]
    · intro k
      simp [eloDecayStep, hly, hlt]
  · intro hy
    intro p
    have hlt : ly < y := by omega
    have harg : (-(cfg.elo_decay : ℝ) * ((y : ℝ) - (ly : ℝ))) = -(cfg.elo_decay : ℝ) := by
      subst hy
      push_cast
      ring
    simp [eloDecayStep, hly, hlt, harg]
  · intro hy
    have hlt : ¬ ly < y := by omega
    constructor <;> simp [eloDecayStep, hly, hlt]

/-- Witness for `annual_decay_spec`: from a state that last saw 2020, a
2021 row decays any rating by one year's factor. -/
theorem annual_decay_spec_witness :
    stY.lastYear = some 2020 ∧
    (eloDecayStep defaultCfg stY 2021).ratings pA
      = 1500 + (stY.ratings pA - 1500)
          * Real.exp (-(defaultCfg.elo_decay : ℝ) * (((2021 : ℤ) : ℝ) - ((2020 : ℤ) : ℝ))) :=
  ⟨rfl, ((annual_decay_spec defaultCfg stY 2020 2021 rfl).1 (by decide)).1 pA⟩

/-- Claim C10: a match whose winner string names neither player (the
code never validates the winner) is processed exactly as a player_2 win:
the realized outcome is `0`, the rating updates and the head-to-head
updates coincide with those of a player_2 win, the reversed-pair win
counter is the one incremented, the last-winner direction is set against
player_1, the output label `y` is `0`, and both long rows record the
match as a loss (`won = 0` for both players). -/
theorem invalid_winner_treated_as_p2_win (cfg : PreprocessConfig) (st : EloState)
    (hst : H2HState) (m : MatchRow)
    (h1 : m.winner ≠ m.player_1) (h2 : m.winner ≠ m.player_2)
    (hp : m.player_1 ≠ m.player_2) :
    eloOutcome m = 0 ∧
    eloApply cfg st m = eloApply cfg st (setWinner m m.player_2) ∧
    h2hApply hst m = h2hApply hst (setWinner m m.player_2) ∧
    (h2hApply hst m).wins (m.player_2, m.player_1)
      = hst.wins (m.player_2, m.player_1) + 1 ∧
    (h2hApply hst m).last (m.player_1, m.player_2) = some (-1) ∧
    labelY m = 0 ∧
    (longRowP1 m).won = 0 ∧ (longRowP2 m).won = 0 := by
  have ho : eloOutcome m = 0 := by simp [eloOutcome, h1]
  have ho2 : eloOutcome (setWinner m m.player_2) = 0 := by
    simp [eloOutcome, setWinner, Ne.symm hp]
  refine ⟨ho, ?_, ?_, ?_, ?_, ?_, ?_, ?_⟩
  · simp [eloApply, setWinner, eloOutcome, h1, Ne.symm hp]
  · simp [h2hApply, setWinner, h1, Ne.symm hp]
  · simp [h2hApply, h1, upd]
  · simp [h2hApply, h1, upd, Prod.ext_iff, hp]
  · simp [labelY, h1]
  · simp [longRowP1, h1]
  · simp [longRowP2, h2]

/-- Witness for `invalid_winner_treated_as_p2_win` at the concrete
fixture whose winner is a third name. -/
theorem invalid_winner_treated_as_p2_win_witness :
    badWinnerMatch.winner ≠ badWinnerMatch.player_1 ∧
    badWinnerMatch.winner ≠ badWinnerMatch.player_2 ∧
    eloOutcome badWinnerMatch = 0 ∧
    labelY badWinnerMatch = 0 ∧
    (longRowP1 badWinnerMatch).won = 0 ∧ (longRowP2 badWinnerMatch).won = 0 :=
  ⟨by decide, by decide,
    (invalid_winner_treated_as_p2_win defaultCfg eloInit h2hInit badWinnerMatch
      (by decide) (by decide) (by decide)).1,
    (invalid_winner_treated_as_p2_win defaultCfg eloInit h2hInit badWinnerMatch
      (by decide) (by decide) (by decide)).2.2.2.2.2.1,
    (invalid_winner_treated_as_p2_win defaultCfg eloInit h2hInit badWinnerMatch
      (by decide) (by decide) (by decide)).2.2.2.2.2.2.1,
    (invalid_winner_treated_as_p2_win defaultCfg eloInit h2hInit badWinnerMatch
      (by decide) (by decide) (by decide)).2.2.2.2.2.2.2⟩

/-- The `h2h_wins` dictionary after a list of matches holds, at each
ordered key, exactly the matches the code's branch logic attributes to
that key. -/
theorem h2hFold_wins (l : List MatchRow) (st : H2HState) (a b : String) :
    (scanFold h2hStepFull st l).wins (a, b) = st.wins (a, b) + h2hCountWins l a b := by
  induction l generalizing st with
  | nil => simp [scanFold, h2hCountWins]
  | cons m rest ih =>
    have hstep : scanFold h2hStepFull st (m :: rest)
        = scanFold h2hStepFull (h2hApply st m) rest := by
      simp [scanFold, h2hStepFull]
    rw [hstep, ih]
    have hcons : h2hCountWins (m :: rest) a b
        = h2hCountWins rest a b + (if (m.player_1 = a ∧ m.player_2 = b ∧ m.winner = m.player_1) ∨
            (m.player_1 = b ∧ m.player_2 = a ∧ m.winner ≠ m.player_1) then 1 else 0) := by
      simp [h2hCountWins, List.countP_cons]
    rw [hcons]
    unfold h2hApply
    by_cases hw : m.winner = m.player_1
    · simp only [if_pos hw]
      by_cases hk : (a, b) = (m.player_1, m.player_2)
      · have h1 : m.player_1 = a := by
          rw [Prod.ext_iff] at hk
          exact hk.1.symm
        have h2 : m.player_2 = b := by
          rw [Prod.ext_iff] at hk
          exact hk.2.symm
        simp [upd, hk, h1, h2, hw]
        omega
      · have hcond : ¬ ((m.player_1 = a ∧ m.player_2 = b ∧ m.winner = m.player_1) ∨
            (m.player_1 = b ∧ m.player_2 = a ∧ m.winner ≠ m.player_1)) := by
          rintro (⟨ha, hb, _⟩ | ⟨_, _, hne⟩)
          · exact hk (by rw [Prod.ext_iff]; exact ⟨ha.symm, hb.symm⟩)
          · exact hne hw
        simp [upd, hk, hcond]
    · simp only [if_neg hw]
      by_cases hk : (a, b) = (m.player_2, m.player_1)
      · have h1 : m.player_2 = a := by
          rw [Prod.ext_iff] at hk
          exact hk.1.symm
        have h2 : m.player_1 = b := by
          rw [Prod.ext_iff] at hk
          exact hk.2.symm
        have hcond : (m.player_1 = a ∧ m.player_2 = b ∧ m.winner = m.player_1) ∨
            (m.player_1 = b ∧ m.player_2 = a ∧ m.winner ≠ m.player_1) :=
          Or.inr ⟨h2, h1, hw⟩
        simp [upd, hk, hcond]
        omega
      · have hcond : ¬ ((m.player_1 = a ∧ m.player_2 = b ∧ m.winner = m.player_1) ∨
            (m.player_1 = b ∧ m.player_2 = a ∧ m.winner ≠ m.player_1)) := by
          rintro (⟨_, _, hww⟩ | ⟨hb, ha, _⟩)
          · exact hw hww
          · exact hk (by rw [Prod.ext_iff]; exact ⟨ha.symm, hb.symm⟩)
        simp [upd, hk, hcond]

/-- Under valid winner fields, the code's directed tally agrees with the
spec's "wins of `a` over `b`". -/
theorem countWins_eq_specWins (l : List MatchRow)
    (hv : ∀ m ∈ l, m.winner = m.player_1 ∨ m.winner = m.player_2) (a b : String) :
    h2hCountWins l a b = specWins l a b := by
  unfold h2hCountWins specWins
  refine List.countP_congr (fun m hm => ?_)
  have hw := hv m hm
  simp only [decide_eq_true_eq]
  constructor
  · rintro (⟨h1, h2, h3⟩ | ⟨h1, h2, h3⟩)
    · exact ⟨Or.inl ⟨h1, h2⟩, h3.trans h1⟩
    · rcases hw with hww | hww
      · exact absurd hww h3
      · exact ⟨Or.inr ⟨h1, h2⟩, hww.trans h2⟩
  · rintro ⟨hmeet, hwa⟩
    rcases hmeet with ⟨h1, h2⟩ | ⟨h1, h2⟩
    · exact Or.inl ⟨h1, h2, hwa.trans h1.symm⟩
    · by_cases hwp : m.winner = m.player_1
      · have hp1a : m.player_1 = a := hwp.symm.trans hwa
        have hab : a = b := hp1a.symm.trans h1
        exact Or.inl ⟨hp1a, h2.trans hab, hwp⟩
      · exact Or.inr ⟨h1, h2, hwp⟩

/-- Claim C7: the emitted `h2h_advantage` of row `i` equals
`(wins - losses) / (wins + losses)` over the directed win counts taken
strictly before row `i` (equal, for valid winner fields, to the spec's
"wins of player_1 over player_2" counts); it is exactly `0` on a first
meeting, exactly `1` at the meeting after player A's first win over B,
and exactly `0` after one win each. -/
theorem h2h_advantage_spec (l : List MatchRow) (i : ℕ) (h : i < l.length)
    (A B x : String) (hAB : A ≠ B) :
    (∀ m, l.get? i = some m →
      ((compute_head_to_head l).get? i).map Prod.fst
        = some (advFromCounts (h2hCountWins (l.take i) m.player_1 m.player_2)
            (h2hCountWins (l.take i) m.player_2 m.player_1))) ∧
    ((∀ mm ∈ l.take i, mm.winner = mm.player_1 ∨ mm.winner = mm.player_2) →
      ∀ a b, h2hCountWins (l.take i) a b = specWins (l.take i) a b) ∧
    (∀ (m : MatchRow) (l' : List MatchRow),
      ((compute_head_to_head (m :: l')).get? 0).map Prod.fst = some 0) ∧
    ((compute_head_to_head
        [mkMatch 0 0 2020 A B A, mkMatch 1 1 2020 A B x]).get? 1).map Prod.fst
      = some 1 ∧
    ((compute_head_to_head
        [mkMatch 0 0 2020 A B A, mkMatch 1 1 2020 A B B,
         mkMatch 2 2 2020 A B x]).get? 2).map Prod.fst
      = some 0 := by
  refine ⟨?_, fun hv a b => countWins_eq_specWins _ hv a b, ?_, ?_, ?_⟩
  · intro m hm
    rw [compute_head_to_head, scanGo_get?, hm]
    have hw1 : (scanFold h2hStepFull h2hInit (l.take i)).wins (m.player_1, m.player_2)
        = h2hCountWins (l.take i) m.player_1 m.player_2 := by
      simpa [h2hInit] using h2hFold_wins (l.take i) h2hInit m.player_1 m.player_2
    have hw2 : (scanFold h2hStepFull h2hInit (l.take i)).wins (m.player_2, m.player_1)
        = h2hCountWins (l.take i) m.player_2 m.player_1 := by
      simpa [h2hInit] using h2hFold_wins (l.take i) h2hInit m.player_2 m.player_1
    simp [h2hStepFull, h2hEmit, advFromCounts, hw1, hw2]
  · intro m l'
    simp [compute_head_to_head, scanGo, h2hStepFull, h2hEmit, h2hInit]
  · have hBA : ¬ (B = A ∧ A = B) := fun hc => hAB hc.2
    simp [compute_head_to_head, scanGo, h2hStepFull, h2hApply, h2hEmit, h2hInit,
      upd, mkMatch, Prod.ext_iff, hAB, Ne.symm hAB, hBA]
  · have hBA : ¬ (B = A ∧ A = B) := fun hc => hAB hc.2
    have hAB2 : ¬ (A = B ∧ B = A) := fun hc => hAB hc.1
    simp [compute_head_to_head, scanGo, h2hStepFull, h2hApply, h2hEmit, h2hInit,
      upd, mkMatch, Prod.ext_iff, hAB, Ne.symm hAB, hBA, hAB2]

/-- Witness for `h2h_advantage_spec` on the two-match fixture. -/
theorem h2h_advantage_spec_witness :
    1 < w1list.length ∧
    ((compute_head_to_head w1list).get? 1).map Prod.fst
      = some (advFromCounts (h2hCountWins (w1list.take 1) pA pB)
          (h2hCountWins (w1list.take 1) pB pA)) := by
  refine ⟨by decide, ?_⟩
  have h := (h2h_advantage_spec w1list 1 (by decide) pA pB pC (by decide)).1
    (mkMatch 1 1 2020 pA pB pB) (by decide)
  simpa [w1list, mkMatch] using h

/-- Claim C6: the trailing form means are windowed rolling means — the
global form uses window `10` with minimum `3` prior entries, the surface
form window `6` with minimum `2`; the window holds the at most `W`
entries strictly preceding the current one (`min i W` of them at group
position `i`); with fewer than the minimum prior entries the value is
null (`none`), and at exactly the minimum it is the arithmetic mean of
those prior outcome indicators. -/
theorem trailing_window_spec (s : List ℚ) (i : ℕ) (hi : i ≤ s.length)
    (l : List MatchRow) (p srf : String) :
    (form_win_rate defaultCfg l i p
      = rollingMeanAt 10 3 (groupSeries (involves p) (wonIndicator p) l)
          (groupIdx (involves p) l i)) ∧
    (surface_form_win_rate defaultCfg l i p srf
      = rollingMeanAt 6 2 (groupSeries (involvesOn p srf) (wonIndicator p) l)
          (groupIdx (involvesOn p srf) l i)) ∧
    (∀ W : ℕ, ((s.take i).drop (i - W)).length = min i W) ∧
    (rollingMeanAt 10 3 s i = none ↔ i < 3) ∧
    (i = 3 → rollingMeanAt 10 3 s i = some ((s.take 3).sum / 3)) ∧
    (rollingMeanAt 6 2 s i = none ↔ i < 2) ∧
    (i = 2 → rollingMeanAt 6 2 s i = some ((s.take 2).sum / 2)) := by
  have hlen : ∀ W : ℕ, ((s.take i).drop (i - W)).length = min i W := by
    intro W
    rw [List.length_drop, List.length_take]
    omega
  refine ⟨rfl, rfl, hlen, ?_, ?_, ?_, ?_⟩
  · rw [rollingMeanAt]
    simp only [hlen 10]
    constructor
    · intro hnone
      by_contra hge
      have hc : ¬ (min i 10 < 3) := by omega
      simp [hc] at hnone
    · intro h3
      have : min i 10 < 3 := by omega
      simp [this]
  · intro h3
    subst h3
    rw [rollingMeanAt]
    simp only [hlen 10]
    have hmin : (3 : ℕ) ⊓ 10 = 3 := rfl
    rw [hmin]
    have hlt : ¬ ((3 : ℕ) < 3) := by omega
    rw [if_neg hlt]
    have hdrop : (3 : ℕ) - 10 = 0 := by omega
    rw [hdrop, List.drop_zero]
    norm_num
  · rw [rollingMeanAt]
    simp only [hlen 6]
    constructor
    · intro hnone
      by_contra hge
      have hc : ¬ (min i 6 < 2) := by omega
      simp [hc] at hnone
    · intro h2
      have : min i 6 < 2 := by omega
      simp [this]
  · intro h2
    subst h2
    rw [rollingMeanAt]
    simp only [hlen 6]
    have hmin : (2 : ℕ) ⊓ 6 = 2 := rfl
    rw [hmin]
    have hlt : ¬ ((2 : ℕ) < 2) := by omega
    rw [if_neg hlt]
    have hdrop : (2 : ℕ) - 6 = 0 := by omega
    rw [hdrop, List.drop_zero]
    norm_num

/-- Witness for `trailing_window_spec` at a concrete series of three
prior outcomes. -/
theorem trailing_window_spec_witness :
    (3 : ℕ) ≤ ([1, 0, 1, 1] : List ℚ).length ∧
    rollingMeanAt 10 3 ([1, 0, 1, 1] : List ℚ) 3
      = some ((([1, 0, 1, 1] : List ℚ).take 3).sum / 3) :=
  ⟨by decide,
    (trailing_window_spec ([1, 0, 1, 1] : List ℚ) 3 (by decide) [] pA surfHard).2.2.2.2.1 rfl⟩

/-- Claim C3, counterexample to the claim as stated: in the fixture
where Alice's rank series is 1, 2, 4, 8 the code reports a rank trend of
`4 - 2 = 2` for her fourth match (the value one match ago minus the
value two matches ago), not the claimed `2 - 1 = 1` (two ago minus three
ago). -/
theorem rank_trend_cex :
    rank_trend c3list 3 pA = some 2 ∧ rank_trend c3list 3 pA ≠ some 1 := by
  have h : rank_trend c3list 3 pA = some 2 := by
    norm_num [rank_trend, trendAt, groupIdx, c3list, mkMatchRank, mkMatch,
      involves, rankOf, pA, pB, surfHard]
  refine ⟨h, ?_⟩
  rw [h]
  norm_num

/-- Claim C3 (corrected): the rank trend (and likewise the points
trend) of a match is the player's value *one* match ago minus the value
*two* matches ago — `s.shift(1) - s.shift(2)` — and it is null when the
player has fewer than two prior recorded values (or either value is
missing). -/
theorem rank_trend_amended (l : List MatchRow) (i : ℕ) (p : String) (a b : ℚ) :
    (2 ≤ groupIdx (involves p) l i →
      ((l.filter (involves p)).map (rankOf p)).get? (groupIdx (involves p) l i - 1)
        = some (some a) →
      ((l.filter (involves p)).map (rankOf p)).get? (groupIdx (involves p) l i - 2)
        = some (some b) →
      rank_trend l i p = some (a - b)) ∧
    (groupIdx (involves p) l i < 2 → rank_trend l i p = none) ∧
    (2 ≤ groupIdx (involves p) l i →
      ((l.filter (involves p)).map (ptsOf p)).get? (groupIdx (involves p) l i - 1)
        = some (some a) →
      ((l.filter (involves p)).map (ptsOf p)).get? (groupIdx (involves p) l i - 2)
        = some (some b) →
      points_trend l i p = some (a - b)) ∧
    (groupIdx (involves p) l i < 2 → points_trend l i p = none) := by
  refine ⟨?_, ?_, ?_, ?_⟩
  · intro h2 ha hb
    rw [rank_trend, trendAt, if_neg (by omega), ha, hb]
  · intro h2
    rw [rank_trend, trendAt, if_pos h2]
  · intro h2 ha hb
    rw [points_trend, trendAt, if_neg (by omega), ha, hb]
  · intro h2
    rw [points_trend, trendAt, if_pos h2]

/-- Witness for `rank_trend_amended` on the doubling-rank fixture. -/
theorem rank_trend_amended_witness :
    2 ≤ groupIdx (involves pA) c3list 3 ∧ rank_trend c3list 3 pA = some (4 - 2) :=
  ⟨by decide,
    (rank_trend_amended c3list 3 pA 4 2).1 (by decide) (by decide) (by decide)⟩

/-- A rolling mean read at the end of a series ignores everything
appended after that point. -/
theorem rollingMeanAt_append (W M : ℕ) (s1 s2 : List ℚ) :
    rollingMeanAt W M (s1 ++ s2) s1.length = rollingMeanAt W M s1 s1.length := by
  simp only [rollingMeanAt, List.take_left, List.take_length]

/-- A trend read at the end of a series ignores everything appended
after that point. -/
theorem trendAt_append (s1 s2 : List (Option ℚ)) :
    trendAt (s1 ++ s2) s1.length = trendAt s1 s1.length := by
  rw [trendAt, trendAt]
  by_cases h2 : s1.length < 2
  · rw [if_pos h2, if_pos h2]
  · rw [if_neg h2, if_neg h2]
    have ha : (s1 ++ s2).get? (s1.length - 1) = s1.get? (s1.length - 1) :=
      List.get?_append (by omega)
    have hb : (s1 ++ s2).get? (s1.length - 2) = s1.get? (s1.length - 2) :=
      List.get?_append (by omega)
    rw [ha, hb]

/-- Claim C1 (no temporal leakage): row `i`'s rating columns and
head-to-head columns are unchanged when the input is truncated right
after row `i`; replacing row `i`'s own outcome fields (winner, score)
leaves its emitted rating and head-to-head columns unchanged; and the
rolling-window features and trend features of row `i` are functions of
the group series restricted to rows strictly before `i`. -/
theorem no_temporal_leakage (cfg : PreprocessConfig) (l : List MatchRow) (i : ℕ)
    (h : i < l.length) (w : String) (sc : Option String)
    (pred : MatchRow → Bool) (f : MatchRow → ℚ) (W M : ℕ) (p : String) :
    (compute_elo cfg l).get? i = (compute_elo cfg (l.take (i + 1))).get? i ∧
    (∀ m, l.get? i = some m →
      (compute_elo cfg (l.set i (setOutcome m w sc))).get? i
        = (compute_elo cfg l).get? i) ∧
    (compute_head_to_head l).get? i = (compute_head_to_head (l.take (i + 1))).get? i ∧
    (∀ m, l.get? i = some m →
      (compute_head_to_head (l.set i (setOutcome m w sc))).get? i
        = (compute_head_to_head l).get? i) ∧
    groupFeatureAt W M pred f l i
      = rollingMeanAt W M (groupSeries pred f (l.take i))
          (groupSeries pred f (l.take i)).length ∧
    rank_trend l i p
      = trendAt (((l.take i).filter (involves p)).map (rankOf p))
          ((((l.take i).filter (involves p)).map (rankOf p)).length) := by
  have htake : (l.take (i + 1)).take i = l.take i := by
    rw [List.take_take]
    congr 1
    omega
  have hget : (l.take (i + 1)).get? i = l.get? i := List.get?_take (by omega)
  refine ⟨?_, ?_, ?_, ?_, ?_, ?_⟩
  · rw [compute_elo, compute_elo, scanGo_get?, scanGo_get?, htake, hget]
  · intro m hm
    have hset_take : (l.set i (setOutcome m w sc)).take i = l.take i :=
      take_set_of_le l i i (setOutcome m w sc) (le_refl i)
    have hset_get : (l.set i (setOutcome m w sc)).get? i = some (setOutcome m w sc) := by
      rw [List.get?_set_eq, hm]
      rfl
    rw [compute_elo, compute_elo, scanGo_get?, scanGo_get?, hset_take, hset_get, hm]
    rfl
  · rw [compute_head_to_head, compute_head_to_head, scanGo_get?, scanGo_get?, htake, hget]
  · intro m hm
    have hset_take : (l.set i (setOutcome m w sc)).take i = l.take i :=
      take_set_of_le l i i (setOutcome m w sc) (le_refl i)
    have hset_get : (l.set i (setOutcome m w sc)).get? i = some (setOutcome m w sc) := by
      rw [List.get?_set_eq, hm]
      rfl
    rw [compute_head_to_head, compute_head_to_head, scanGo_get?, scanGo_get?,
      hset_take, hset_get, hm]
    rfl
  · have hsplit : groupSeries pred f l
        = groupSeries pred f (l.take i) ++ groupSeries pred f (l.drop i) := by
      rw [groupSeries, groupSeries, groupSeries, ← List.map_append, ← List.filter_append,
        List.take_append_drop]
    have hn : groupIdx pred l i = (groupSeries pred f (l.take i)).length := by
      rw [groupIdx, groupSeries, List.length_map]
    rw [groupFeatureAt, hsplit, hn]
    exact rollingMeanAt_append W M _ _
  · have hsplit : (l.filter (involves p)).map (rankOf p)
        = ((l.take i).filter (involves p)).map (rankOf p)
          ++ ((l.drop i).filter (involves p)).map (rankOf p) := by
      rw [← List.map_append, ← List.filter_append, List.take_append_drop]
    have hn : groupIdx (involves p) l i
        = (((l.take i).filter (involves p)).map (rankOf p)).length := by
      rw [groupIdx, List.length_map]
    rw [rank_trend, hsplit, hn]
    exact trendAt_append _ _

/-- Witness for `no_temporal_leakage` on the two-match fixture. -/
theorem no_temporal_leakage_witness :
    1 < w1list.length ∧
    (compute_elo defaultCfg w1list).get? 1
      = (compute_elo defaultCfg (w1list.take 2)).get? 1 ∧
    (compute_head_to_head w1list).get? 1
      = (compute_head_to_head (w1list.take 2)).get? 1 :=
  ⟨by decide,
    (no_temporal_leakage defaultCfg w1list 1 (by decide) pC none
      (involves pA) (wonIndicator pA) 10 3 pA).1,
    (no_temporal_leakage defaultCfg w1list 1 (by decide) pC none
      (involves pA) (wonIndicator pA) 10 3 pA).2.2.1⟩

/-- Every element in an `if`-guarded singleton is that element. -/
theorem mem_ite_singleton (b : Bool) (aa x : String) (hx : x ∈ (if b then [aa] else [])) :
    x = aa := by
  cases b with
  | false => simp at hx
  | true => simpa using hx

/-- The diff columns `run_pipeline` may add are never required columns,
so the schema check sees the same missing set before and after the
addition. -/
theorem missingCols_addDiffCols (t : RawTable) :
    missingCols (addDiffCols t) = missingCols t := by
  unfold missingCols
  refine List.filter_congr (fun c hc => ?_)
  have hmem : ∀ x : String, x ∈ (addDiffCols t).cols →
      x ∈ t.cols ∨ x = colRankDiff ∨ x = colPtsDiff ∨ x = colOddDiff := by
    intro x hx
    simp only [addDiffCols, List.mem_append] at hx
    rcases hx with ((hx | hx) | hx) | hx
    · exact Or.inl hx
    · exact Or.inr (Or.inl (mem_ite_singleton _ _ _ hx))
    · exact Or.inr (Or.inr (Or.inl (mem_ite_singleton _ _ _ hx)))
    · exact Or.inr (Or.inr (Or.inr (mem_ite_singleton _ _ _ hx)))
  have hiff : c ∈ renameCols (addDiffCols t).cols ↔ c ∈ renameCols t.cols := by
    constructor
    · intro hcin
      rcases List.mem_map.1 hcin with ⟨x, hxmem, hxeq⟩
      rcases hmem x hxmem with hx | hx | hx | hx
      · exact List.mem_map.2 ⟨x, hx, hxeq⟩
      · subst hx
        have hcrd : c = colRankDiff := hxeq.symm.trans (by decide)
        subst hcrd
        exact absurd hc (by decide)
      · subst hx
        have hcrd : c = colPtsDiff := hxeq.symm.trans (by decide)
        subst hcrd
        exact absurd hc (by decide)
      · subst hx
        have hcrd : c = colOddDiff := hxeq.symm.trans (by decide)
        subst hcrd
        exact absurd hc (by decide)
    · intro hcin
      rcases List.mem_map.1 hcin with ⟨x, hxmem, hxeq⟩
      refine List.mem_map.2 ⟨x, ?_, hxeq⟩
      simp only [addDiffCols, List.mem_append]
      exact Or.inl (Or.inl (Or.inl hxmem))
  exact decide_eq_decide.mpr (not_congr hiff)

/-- Claim C9: with any required column (`player_1`, `player_2`,
`winner`, `date`) missing after the rename, `preprocess` raises the
schema error before creating any rating / history / head-to-head state
or assembling any row — structurally, its error branch returns before
the engines are invoked — and `run_pipeline` propagates the same error,
so no output file content is produced. -/
theorem schema_error_aborts (cfg : PreprocessConfig) (t : RawTable)
    (h : missingCols t ≠ []) :
    preprocess cfg t = Except.error (schemaErrMsg (missingCols t)) ∧
    run_pipeline cfg t = Except.error (schemaErrMsg (missingCols t)) ∧
    csvWritten cfg t = none := by
  have hne : (missingCols t).isEmpty = false := by
    rw [← Bool.not_eq_true, List.isEmpty_iff]
    exact h
  have hpre : preprocess cfg t = Except.error (schemaErrMsg (missingCols t)) := by
    rw [preprocess, if_neg (by rw [hne]; exact Bool.false_ne_true)]
  have hrun : run_pipeline cfg t = Except.error (schemaErrMsg (missingCols t)) := by
    have hne2 : (missingCols (addDiffCols t)).isEmpty = false := by
      rw [missingCols_addDiffCols]
      exact hne
    rw [run_pipeline, preprocess, if_neg (by rw [hne2]; exact Bool.false_ne_true),
      missingCols_addDiffCols]
  exact ⟨hpre, hrun, by rw [csvWritten, hrun]; rfl⟩

/-- Witness for `schema_error_aborts` on a table lacking `player_2`. -/
theorem schema_error_aborts_witness :
    missingCols badTable ≠ [] ∧
    preprocess defaultCfg badTable = Except.error (schemaErrMsg (missingCols badTable)) ∧
    run_pipeline defaultCfg badTable
      = Except.error (schemaErrMsg (missingCols badTable)) ∧
    csvWritten defaultCfg badTable = none :=
  ⟨by decide, schema_error_aborts defaultCfg badTable (by decide)⟩

/-- Claim C8 (code bug): `parse_score`'s docstring promises that
walkovers *and retirements* return zeros, and the zero branch only
tests for `"w/o"` / `"walkover"`; a retirement token that carries a
partial score parses to non-zero tallies. -/
theorem parse_score_retirement_not_zero :
    parse_score (some retScore) = (6, 3, 1, 0, 0) ∧
    parse_score (some retScore) ≠ (0, 0, 0, 0, 0) := by
  constructor
  · rfl
  · decide

end WTA
